import Mathlib

/-!
Verification of the PPO experience-collection orchestrator
(`trlx/orchestrator/ppo_orchestrator.py`): a shallow embedding of
`PPOOrchestrator.make_experience` and `T5PPOOrchestrator.make_experience`,
with token tensors as lists of lists of integers and floating-point
scalars as rationals.  External collaborators (the policy model, the
reference model, the tokenizer, the reward function, torch statistics and
the `RunningMoments` helper) are abstract function parameters bundled in
environment structures; the orchestrator logic itself is translated
line by line from the source.
-/

set_option autoImplicit false

/-- A prompt batch is the `input_ids` field: one row of token ids per prompt. -/
abbrev PromptBatch := List (List ℤ)

/-- Python slice `xs[start:stop]` for `0 ≤ start`, `0 ≤ stop` (out-of-range
indices are clipped silently, exactly as in Python/torch). -/
def pySlice {α : Type} (xs : List α) (start stop : ℕ) : List α :=
  (xs.drop start).take (stop - start)

/-- In-place write `xs[-1] = v` on a nonempty tensor; on the empty list this
is a no-op (the Python code never reaches that case in the claims proved
here, which carry nonemptiness hypotheses). -/
def setLast (xs : List ℚ) (v : ℚ) : List ℚ :=
  xs.set (xs.length - 1) v

/-- Result of `torch.clip(x, lo, hi)`: the lower bound is applied first,
then the upper bound. -/
def torchClip (lo hi x : ℚ) : ℚ :=
  min (max x lo) hi

/-- Modelled from the spec: `logprobs_from_logits` (defined in
`trlx/utils/modeling.py`, which is not part of the sources) gathers, at every
position, the log-probability of the label token under that position's
logits row; the gather itself (`log_softmax` + `gather`) is the abstract
parameter `lp`.  The shift-by-one alignment is performed by the caller in
the orchestrator source and is embedded in `shiftLogprobs` below. -/
def logprobs_from_logits (lp : List ℚ → ℤ → ℚ)
    (logits : List (List ℚ)) (labels : List ℤ) : List ℚ :=
  List.zipWith lp logits labels

/-- The call pattern `logprobs_from_logits(logits[:, :-1, :], tokens[1:])`
from lines 145-148 and 292-295 of the source, for one sample row: logits
are dropped at the last position and the token sequence is shifted by one. -/
def shiftLogprobs (lp : List ℚ → ℤ → ℚ)
    (logitsRow : List (List ℚ)) (tokensRow : List ℤ) : List ℚ :=
  logprobs_from_logits lp logitsRow.dropLast (tokensRow.drop 1)

/-- Per-token KL-derived reward `-kl_ctl.value * (logprobs - ref_logprobs)`
(source lines 163 and 308), for one sample row. -/
def klReward (kl : ℚ) (lps rlps : List ℚ) : List ℚ :=
  List.zipWith (fun a b => -kl * (a - b)) lps rlps

/-- Modelled from the spec: the state of the `RunningMoments` helper
(`trlx/utils/modeling.py`, not part of the sources): a count of scalars
seen plus running mean and standard deviation. -/
structure RunStats where
  count : ℕ
  mean : ℚ
  std : ℚ
  deriving DecidableEq

/-- Modelled from the spec: the external statistics collaborators — torch's
batch `mean`/`std` and the Welford-style `RunningMoments.update`, which
returns the batch mean and std and advances the running state.  Their
numerics are abstract; the orchestrator only threads their results. -/
structure ScoreStats where
  upd : RunStats → List ℚ → RunStats × ℚ × ℚ
  tmean : List ℚ → ℚ
  tstd : List ℚ → ℚ

/-- The `config.method` fields read by the orchestrator. -/
structure MethodConfig where
  scaleReward : String
  cliprangeReward : Option ℚ
  deriving DecidableEq

/-- The mutable per-orchestrator state touched by `make_experience`:
`self.ref_mean`, `self.ref_std` and `self.running`. -/
structure OrchState where
  refMean : Option ℚ
  refStd : Option ℚ
  running : RunStats
  deriving DecidableEq

/-- Source lines 104-105 / 256-257: on the first scored batch (detected by
`ref_mean is None`) both reference statistics are captured from the batch. -/
def captureRef (S : ScoreStats) (st : OrchState) (scores : List ℚ) : OrchState :=
  if st.refMean = none then
    { st with refMean := some (S.tmean scores), refStd := some (S.tstd scores) }
  else st

/-- Source lines 117-119 / 269-271: `torch.clip` is applied only when the
configured `cliprange_reward` is truthy (present and nonzero). -/
def applyClip (cfg : MethodConfig) (scores : List ℚ) : List ℚ :=
  match cfg.cliprangeReward with
  | none => scores
  | some c => if c = 0 then scores else scores.map (torchClip (-c) c)

/-- Source lines 104-119 / 256-271: reference-statistics capture, running
moments update, optional normalization ("running" divides by the running
std just updated with this batch, "ref" by the stored reference std), then
optional clipping.  Returns the new orchestrator state and shaped scores. -/
def shapeScores (S : ScoreStats) (cfg : MethodConfig) (st : OrchState)
    (scores : List ℚ) : OrchState × List ℚ :=
  let st1 := captureRef S st scores
  let run2 := (S.upd st1.running scores).1
  let st2 := { st1 with running := run2 }
  let scores1 :=
    if cfg.scaleReward = "running" then scores.map (fun x => x / run2.std)
    else if cfg.scaleReward = "ref" then scores.map (fun x => x / (st1.refStd.getD 0))
    else scores
  (st2, applyClip cfg scores1)

/-- One rollout element (`PPORLElement` of `trlx/data/ppo_types.py`). -/
structure PPORLElement where
  query_tensor : List ℤ
  response_tensor : List ℤ
  logprobs : List ℚ
  values : List ℚ
  rewards : List ℚ
  deriving DecidableEq

/-- Start of the decoder-only response span: `query_tensors.shape[1] - 1`
(source line 157). -/
def decSpanStart (q : ℕ) : ℕ := q - 1

/-- End of the decoder-only response span:
`start + attention_mask[ix, start:].sum()` (source line 158). -/
def decSpanStop (q : ℕ) (maskRow : List ℕ) : ℕ :=
  decSpanStart q + ((maskRow.drop (decSpanStart q)).sum)

/-- Number of positions the decoder-only extractor actually returns for one
sample, out of rows of length `T` trimmed to `T - 1` columns: the slice
`[start : stop]` clipped to the trimmed row. -/
def decSpanLen (T q : ℕ) (maskRow : List ℕ) : ℕ :=
  min (decSpanStop q maskRow) (T - 1) - decSpanStart q

/-- Per-sample element construction of the decoder-only orchestrator
(source lines 145-179): shifted logprobs for policy and reference, values
trimmed of their last column, per-sample slices `[start : ends[ix]]`, and
the shaped score written over the last entry of the sliced reward vector. -/
def mkDecElement (lp : List ℚ → ℤ → ℚ) (kl : ℚ) (q : ℕ) (maskRow : List ℕ)
    (queryRow respRow tokensRow : List ℤ) (logitsRow refLogitsRow : List (List ℚ))
    (valuesRow : List ℚ) (score : ℚ) : PPORLElement :=
  let start := decSpanStart q
  let stop := decSpanStop q maskRow
  let lps := shiftLogprobs lp logitsRow tokensRow
  let rlps := shiftLogprobs lp refLogitsRow tokensRow
  { query_tensor := queryRow
    response_tensor := respRow
    logprobs := pySlice lps start stop
    values := pySlice valuesRow.dropLast start stop
    rewards := setLast (pySlice (klReward kl lps rlps) start stop) score }

/-- Source lines 18-28 (`_add_start_token_to_decoder_ids`): prepend a zero
start token to every decoder row and an unmasked column to the decoder
attention mask. -/
def add_start_token_to_decoder_ids (ids : List (List ℤ)) (mask : List (List ℕ)) :
    List (List ℤ) × List (List ℕ) :=
  (ids.map (fun r => 0 :: r), mask.map (fun r => 1 :: r))

/-- Per-sample element construction of the encoder-decoder orchestrator
(source lines 292-324): logprobs aligned against the decoder input row,
values trimmed of their last column, full (unsliced) rows, and the shaped
score written over the last entry of the full reward row. -/
def mkT5Element (lp : List ℚ → ℤ → ℚ) (kl : ℚ)
    (queryRow respRow decRow : List ℤ) (logitsRow refLogitsRow : List (List ℚ))
    (valuesRow : List ℚ) (score : ℚ) : PPORLElement :=
  let lps := shiftLogprobs lp logitsRow decRow
  let rlps := shiftLogprobs lp refLogitsRow decRow
  { query_tensor := queryRow
    response_tensor := respRow
    logprobs := lps
    values := valuesRow.dropLast
    rewards := setLast (klReward kl lps rlps) score }

/-- Reward-vector index of a sample's true last generated token in the
encoder-decoder path: the decoder row is `0 :: response`, reward index `t`
is aligned with decoder token `t + 1`, i.e. with response token `t`; with
`respMask` marking the valid (non-padding) response tokens, the last valid
one is response token `respMask.sum - 1`. -/
def lastGeneratedRewardIdx (respMask : List ℕ) : ℕ :=
  respMask.sum - 1

/-- The abstract external collaborators of `PPOOrchestrator` plus its
configuration: `lp` is the log-softmax gather, `loader j` the `j`-th fresh
pass of the shuffled prompt loader, `generate` the policy sampling call,
`maskOf` the attention-mask construction of the (external)
`get_model_inputs`, `forward`/`refForward` the no-grad forward passes
returning logits and values, and `score` the decode-and-reward composite. -/
structure DecEnv where
  lp : List ℚ → ℤ → ℚ
  stats : ScoreStats
  cfg : MethodConfig
  kl : ℚ
  loader : ℕ → List PromptBatch
  generate : PromptBatch → List (List ℤ)
  maskOf : List (List ℤ) → List (List ℕ)
  forward : List (List ℤ) → List (List ℕ) → List (List (List ℚ)) × List (List ℚ)
  refForward : List (List ℤ) → List (List ℕ) → List (List (List ℚ))
  score : List (List ℤ) → List ℚ

/-- One iteration body of `PPOOrchestrator.make_experience` (source lines
88-179) for one prompt batch: generate, split off responses at the prompt
width, score, shape scores, build `all_tokens` by concatenation (modelled
from the spec: the external decoder-only `get_model_inputs` concatenates
query and response rows and builds the attention mask), run both forward
passes, and emit one `PPORLElement` per sample. -/
def processDecBatch (env : DecEnv) (st : OrchState) (batch : PromptBatch) :
    OrchState × List PPORLElement :=
  let samples := env.generate batch
  let q := (batch.headD []).length
  let responses := samples.map (fun s => s.drop q)
  let scores0 := env.score samples
  let res := shapeScores env.stats env.cfg st scores0
  let allTokens := List.zipWith (fun a b => a ++ b) batch responses
  let mask := env.maskOf allTokens
  let fwd := env.forward allTokens mask
  let refLogits := env.refForward allTokens mask
  let n := samples.length
  (res.1, (List.range n).map (fun ix =>
    mkDecElement env.lp env.kl q (mask.getD ix []) (batch.getD ix [])
      (responses.getD ix []) (allTokens.getD ix []) (fwd.1.getD ix [])
      (refLogits.getD ix []) (fwd.2.getD ix []) (res.2.getD ix 0)))

/-- State of the cyclic iterator over the prompt loader: which fresh pass
`iter(self.pipeline_loader)` is current, and the position inside it. -/
structure IterState where
  passIdx : ℕ
  pos : ℕ
  deriving DecidableEq

/-- Source lines 81-86 / 226-231: `next(self.pipeline_iterator)` with the
`StopIteration` handler that restarts a fresh pass and takes its first
batch.  `none` models the uncaught `StopIteration` raised by the second
`next` when the fresh pass itself is empty. -/
def nextPromptBatch {α : Type} (loader : ℕ → List α) (s : IterState) :
    Option (α × IterState) :=
  match (loader s.passIdx)[s.pos]? with
  | some b => some (b, ⟨s.passIdx, s.pos + 1⟩)
  | none =>
    match (loader (s.passIdx + 1))[0]? with
    | some b => some (b, ⟨s.passIdx + 1, 1⟩)
    | none => none

/-- The accumulation loop of `PPOOrchestrator.make_experience` (source
lines 80-181), with explicit fuel: `while len(ppo_rl_elements) <
num_rollouts` draw a batch, process it, append the new elements.  `none`
models an aborted call (uncaught exception or non-termination within the
supplied fuel); `some` carries the final iterator state, orchestrator
state and the accumulated elements subsequently pushed to the store. -/
def decLoop (env : DecEnv) :
    ℕ → ℕ → IterState → OrchState → List PPORLElement →
    Option (IterState × OrchState × List PPORLElement)
  | 0, _, _, _, _ => none
  | fuel + 1, N, it, st, acc =>
    if acc.length < N then
      match nextPromptBatch env.loader it with
      | none => none
      | some (b, it2) =>
        let pb := processDecBatch env st b
        decLoop env fuel N it2 pb.1 (acc ++ pb.2)
    else some (it, st, acc)

/-- `PPOOrchestrator.make_experience(num_rollouts = N)`: the loop needs at
most `N` iterations when every batch yields at least one element, so fuel
`N + 1` is exact; the returned element list is what line 191 pushes to the
store. -/
def make_experience (env : DecEnv) (it : IterState) (st : OrchState) (N : ℕ) :
    Option (IterState × OrchState × List PPORLElement) :=
  decLoop env (N + 1) N it st []

/-- The abstract external collaborators of `T5PPOOrchestrator`:
`respMaskOf` and `encMaskOf` model the mask construction of the external
encoder-decoder `get_model_inputs`, `forward`/`refForward` take encoder
ids, encoder mask, decoder ids and decoder mask, and `score` composes the
decoding of queries and responses with the reward function. -/
structure T5Env where
  lp : List ℚ → ℤ → ℚ
  stats : ScoreStats
  cfg : MethodConfig
  kl : ℚ
  loader : ℕ → List PromptBatch
  generate : PromptBatch → List (List ℤ)
  respMaskOf : List (List ℤ) → List (List ℕ)
  encMaskOf : List (List ℤ) → List (List ℕ)
  forward : List (List ℤ) → List (List ℕ) → List (List ℤ) → List (List ℕ) →
    List (List (List ℚ)) × List (List ℚ)
  refForward : List (List ℤ) → List (List ℕ) → List (List ℤ) → List (List ℕ) →
    List (List (List ℚ))
  score : PromptBatch → List (List ℤ) → List ℚ

/-- One iteration body of `T5PPOOrchestrator.make_experience` (source lines
233-324): the whole generated output is the response, decoder inputs are
built by prepending the start token (modelled from the spec: the external
encoder-decoder `get_model_inputs` applies
`_add_start_token_to_decoder_ids` to the response rows), and per-sample
tensors are kept whole (no span slicing). -/
def processT5Batch (env : T5Env) (st : OrchState) (batch : PromptBatch) :
    OrchState × List PPORLElement :=
  let samples := env.generate batch
  let responses := samples
  let scores0 := env.score batch samples
  let res := shapeScores env.stats env.cfg st scores0
  let dec := add_start_token_to_decoder_ids responses (env.respMaskOf responses)
  let encMask := env.encMaskOf batch
  let fwd := env.forward batch encMask dec.1 dec.2
  let refLogits := env.refForward batch encMask dec.1 dec.2
  let n := samples.length
  (res.1, (List.range n).map (fun ix =>
    mkT5Element env.lp env.kl (batch.getD ix []) (responses.getD ix [])
      (dec.1.getD ix []) (fwd.1.getD ix []) (refLogits.getD ix [])
      (fwd.2.getD ix []) (res.2.getD ix 0)))

/-- The accumulation loop of `T5PPOOrchestrator.make_experience` (source
lines 225-327), identical in structure to the decoder-only loop. -/
def t5Loop (env : T5Env) :
    ℕ → ℕ → IterState → OrchState → List PPORLElement →
    Option (IterState × OrchState × List PPORLElement)
  | 0, _, _, _, _ => none
  | fuel + 1, N, it, st, acc =>
    if acc.length < N then
      match nextPromptBatch env.loader it with
      | none => none
      | some (b, it2) =>
        let pb := processT5Batch env st b
        t5Loop env fuel N it2 pb.1 (acc ++ pb.2)
    else some (it, st, acc)

/-- `T5PPOOrchestrator.make_experience(num_rollouts = N)`. -/
def t5_make_experience (env : T5Env) (it : IterState) (st : OrchState) (N : ℕ) :
    Option (IterState × OrchState × List PPORLElement) :=
  t5Loop env (N + 1) N it st []

/-! ### List index helper lemmas -/

/-- Indexing a `zipWith` within both bounds evaluates the function at the
two indexed entries. -/
theorem getD_zipWith {α β γ : Type} (f : α → β → γ) :
    ∀ (as : List α) (bs : List β) (i : ℕ) (da : α) (db : β) (dc : γ),
      i < as.length → i < bs.length →
      (List.zipWith f as bs).getD i dc = f (as.getD i da) (bs.getD i db) := by
  intro as
  induction as with
  | nil => intro bs i da db dc h1 _; exact absurd h1 (by simp)
  | cons a as ih =>
    intro bs i da db dc h1 h2
    cases bs with
    | nil => exact absurd h2 (by simp)
    | cons b bs =>
      cases i with
      | zero => rfl
      | succ i =>
        simpa using ih bs i da db dc (by simpa using h1) (by simpa using h2)

/-- Indexing after `drop` shifts the index. -/
theorem getD_drop {α : Type} :
    ∀ (l : List α) (n i : ℕ) (d : α), (l.drop n).getD i d = l.getD (n + i) d := by
  intro l
  induction l with
  | nil => intro n i d; simp
  | cons a l ih =>
    intro n i d
    cases n with
    | zero => simp
    | succ n =>
      rw [List.drop_succ_cons, ih n i d, Nat.succ_add, List.getD_cons_succ]

/-- Indexing within a `take` bound ignores the `take`. -/
theorem getD_take {α : Type} :
    ∀ (l : List α) (n i : ℕ) (d : α), i < n → (l.take n).getD i d = l.getD i d := by
  intro l
  induction l with
  | nil => intro n i d _; simp
  | cons a l ih =>
    intro n i d h
    cases n with
    | zero => exact absurd h (by omega)
    | succ n =>
      cases i with
      | zero => rfl
      | succ i => simpa using ih n i d (by omega)

/-- Indexing strictly before the last entry ignores `dropLast`. -/
theorem getD_dropLast {α : Type} :
    ∀ (l : List α) (i : ℕ) (d : α), i + 1 < l.length →
      l.dropLast.getD i d = l.getD i d := by
  intro l
  induction l with
  | nil => intro i d h; simp at h
  | cons a l ih =>
    intro i d h
    cases l with
    | nil => simp at h
    | cons b l =>
      cases i with
      | zero => rfl
      | succ i =>
        simpa using ih i d (by simpa using h)

/-- Indexing a `set` away from the written position reads the original. -/
theorem getD_set_ne {α : Type} :
    ∀ (l : List α) (n : ℕ) (v : α) (i : ℕ) (d : α), i ≠ n →
      (l.set n v).getD i d = l.getD i d := by
  intro l
  induction l with
  | nil => intro n v i d _; simp
  | cons a l ih =>
    intro n v i d h
    cases n with
    | zero =>
      cases i with
      | zero => exact absurd rfl h
      | succ i => rfl
    | succ n =>
      cases i with
      | zero => rfl
      | succ i => simpa using ih n v i d (by omega)

/-- Indexing a `set` at the written position reads the new value. -/
theorem getD_set_self {α : Type} :
    ∀ (l : List α) (n : ℕ) (v : α) (d : α), n < l.length →
      (l.set n v).getD n d = v := by
  intro l
  induction l with
  | nil => intro n v d h; simp at h
  | cons a l ih =>
    intro n v d h
    cases n with
    | zero => rfl
    | succ n => simpa using ih n v d (by simpa using h)

/-- Length of a Python slice of `l`: bounded by the requested width and by
what remains of the list after `start`. -/
theorem length_pySlice {α : Type} (l : List α) (start stop : ℕ) :
    (pySlice l start stop).length = min (stop - start) (l.length - start) := by
  simp [pySlice]

/-- Entries of a Python slice, within the requested width. -/
theorem getD_pySlice {α : Type} (l : List α) (start stop i : ℕ) (d : α)
    (h : i < stop - start) :
    (pySlice l start stop).getD i d = l.getD (start + i) d := by
  unfold pySlice
  rw [getD_take _ _ _ _ h, getD_drop]

/-- Length of the shifted logprob extraction: one less than each input row. -/
theorem length_shiftLogprobs (lp : List ℚ → ℤ → ℚ)
    (logitsRow : List (List ℚ)) (tokensRow : List ℤ) :
    (shiftLogprobs lp logitsRow tokensRow).length =
      min (logitsRow.length - 1) (tokensRow.length - 1) := by
  simp [shiftLogprobs, logprobs_from_logits]

/-- Length of the per-token KL reward row. -/
theorem length_klReward (kl : ℚ) (lps rlps : List ℚ) :
    (klReward kl lps rlps).length = min lps.length rlps.length := by
  simp [klReward]

/-- `setLast` preserves length. -/
theorem length_setLast (xs : List ℚ) (v : ℚ) :
    (setLast xs v).length = xs.length := by
  simp [setLast]

/-! ### Helper lemmas about the shaping and loop state -/

/-- `captureRef` never touches the running moments. -/
theorem captureRef_running (S : ScoreStats) (st : OrchState) (scores : List ℚ) :
    (captureRef S st scores).running = st.running := by
  unfold captureRef
  split <;> rfl

/-- When `ref_mean` is already set, the capture branch is skipped entirely. -/
theorem captureRef_of_set (S : ScoreStats) (st : OrchState) (scores : List ℚ)
    (m : ℚ) (hm : st.refMean = some m) : captureRef S st scores = st := by
  unfold captureRef
  rw [if_neg (by simp [hm])]

/-- When `ref_mean` is unset, the capture branch stores this batch's mean
and std. -/
theorem shapeScores_capture (S : ScoreStats) (cfg : MethodConfig) (st : OrchState)
    (scores : List ℚ) (hm : st.refMean = none) :
    ((shapeScores S cfg st scores).1).refMean = some (S.tmean scores)
    ∧ ((shapeScores S cfg st scores).1).refStd = some (S.tstd scores) := by
  simp only [shapeScores, captureRef, hm, if_pos]
  exact ⟨trivial, trivial⟩

/-- When `ref_mean` is already set, shaping a batch leaves both reference
statistics untouched. -/
theorem shapeScores_pinned (S : ScoreStats) (cfg : MethodConfig) (st : OrchState)
    (scores : List ℚ) (m : ℚ) (hm : st.refMean = some m) :
    ((shapeScores S cfg st scores).1).refMean = some m
    ∧ ((shapeScores S cfg st scores).1).refStd = st.refStd := by
  simp only [shapeScores, captureRef_of_set S st scores m hm]
  exact ⟨hm, trivial⟩

/-- The state produced by one decoder-only batch is the shaping state. -/
theorem processDecBatch_state (env : DecEnv) (st : OrchState) (b : PromptBatch) :
    (processDecBatch env st b).1
      = (shapeScores env.stats env.cfg st (env.score (env.generate b))).1 := rfl

/-- The state produced by one encoder-decoder batch is the shaping state. -/
theorem processT5Batch_state (env : T5Env) (st : OrchState) (b : PromptBatch) :
    (processT5Batch env st b).1
      = (shapeScores env.stats env.cfg st (env.score b (env.generate b))).1 := rfl

/-- One decoder-only batch yields one element per generated sample. -/
theorem processDecBatch_len (env : DecEnv) (st : OrchState) (b : PromptBatch) :
    (processDecBatch env st b).2.length = (env.generate b).length := by
  simp [processDecBatch]

/-- Once `ref_mean` is set, the decoder-only loop never changes either
reference statistic. -/
theorem decLoop_pinned (env : DecEnv) :
    ∀ (fuel N : ℕ) (it : IterState) (st : OrchState) (acc : List PPORLElement)
      (it2 : IterState) (st2 : OrchState) (els : List PPORLElement) (m : ℚ),
      st.refMean = some m →
      decLoop env fuel N it st acc = some (it2, st2, els) →
      st2.refMean = some m ∧ st2.refStd = st.refStd := by
  intro fuel
  induction fuel with
  | zero =>
    intro N it st acc it2 st2 els m hm h
    simp [decLoop] at h
  | succ f ih =>
    intro N it st acc it2 st2 els m hm h
    simp only [decLoop] at h
    split at h
    · split at h
      · exact absurd h (by simp)
      · rename_i b it3 heq
        have hpin := shapeScores_pinned env.stats env.cfg st
          (env.score (env.generate b)) m hm
        have hst := processDecBatch_state env st b
        have step := ih N it3 (processDecBatch env st b).1
          (acc ++ (processDecBatch env st b).2) it2 st2 els m
          (by rw [hst]; exact hpin.1) h
        refine ⟨step.1, ?_⟩
        rw [step.2, hst, hpin.2]
    · simp only [Option.some.injEq, Prod.mk.injEq] at h
      obtain ⟨-, h2, -⟩ := h
      subst h2
      exact ⟨hm, rfl⟩

/-- Once `ref_mean` is set, the encoder-decoder loop never changes either
reference statistic. -/
theorem t5Loop_pinned (env : T5Env) :
    ∀ (fuel N : ℕ) (it : IterState) (st : OrchState) (acc : List PPORLElement)
      (it2 : IterState) (st2 : OrchState) (els : List PPORLElement) (m : ℚ),
      st.refMean = some m →
      t5Loop env fuel N it st acc = some (it2, st2, els) →
      st2.refMean = some m ∧ st2.refStd = st.refStd := by
  intro fuel
  induction fuel with
  | zero =>
    intro N it st acc it2 st2 els m hm h
    simp [t5Loop] at h
  | succ f ih =>
    intro N it st acc it2 st2 els m hm h
    simp only [t5Loop] at h
    split at h
    · split at h
      · exact absurd h (by simp)
      · rename_i b it3 heq
        have hpin := shapeScores_pinned env.stats env.cfg st
          (env.score b (env.generate b)) m hm
        have hst := processT5Batch_state env st b
        have step := ih N it3 (processT5Batch env st b).1
          (acc ++ (processT5Batch env st b).2) it2 st2 els m
          (by rw [hst]; exact hpin.1) h
        refine ⟨step.1, ?_⟩
        rw [step.2, hst, hpin.2]
    · simp only [Option.some.injEq, Prod.mk.injEq] at h
      obtain ⟨-, h2, -⟩ := h
      subst h2
      exact ⟨hm, rfl⟩

/-- The entry of the shifted logprob extraction at position `t` is the
gathered log-probability of the token at position `t + 1`. -/
theorem shiftLogprobs_getD (lp : List ℚ → ℤ → ℚ) (logitsRow : List (List ℚ))
    (tokensRow : List ℤ) (t : ℕ) (h1 : t + 1 < logitsRow.length)
    (h2 : t + 1 < tokensRow.length) :
    (shiftLogprobs lp logitsRow tokensRow).getD t 0
      = lp (logitsRow.getD t []) (tokensRow.getD (t + 1) 0) := by
  unfold shiftLogprobs logprobs_from_logits
  rw [getD_zipWith lp _ _ t [] 0 0 (by simp [List.length_dropLast]; omega)
    (by simp [List.length_drop]; omega)]
  rw [getD_dropLast _ _ _ h1, getD_drop]
  rw [Nat.add_comm 1 t]

/-- With every fresh pass nonempty, drawing the next prompt batch always
succeeds. -/
theorem nextPromptBatch_total {α : Type} (loader : ℕ → List α)
    (hl : ∀ j, loader j ≠ []) (s : IterState) :
    ∃ b s2, nextPromptBatch loader s = some (b, s2) := by
  unfold nextPromptBatch
  cases h1 : (loader s.passIdx)[s.pos]? with
  | some b => exact ⟨b, _, rfl⟩
  | none =>
    cases h2 : (loader (s.passIdx + 1))[0]? with
    | some b => exact ⟨b, _, rfl⟩
    | none =>
      exfalso
      have hle := List.getElem?_eq_none_iff.mp h2
      exact hl (s.passIdx + 1) (List.length_eq_zero.mp (Nat.le_zero.mp hle))

/-- When the current pass is exhausted and the restarted pass is empty too,
the second `next` raises: there is no batch to return. -/
theorem nextPromptBatch_none {α : Type} (loader : ℕ → List α) (s : IterState)
    (h1 : (loader s.passIdx).length ≤ s.pos) (h2 : loader (s.passIdx + 1) = []) :
    nextPromptBatch loader s = none := by
  unfold nextPromptBatch
  rw [List.getElem?_eq_none h1, h2]
  rfl

/-- The decoder-only loop, run with enough fuel, reaches the quota: with
nonempty passes and per-batch sample counts in `[1, M]`, it returns, the
result holds at least `N` elements, and overshoots by less than one
maximal batch. -/
theorem decLoopTotal (env : DecEnv) (N M : ℕ)
    (hl : ∀ j, env.loader j ≠ [])
    (hg1 : ∀ b, 1 ≤ (env.generate b).length)
    (hgM : ∀ b, (env.generate b).length ≤ M) :
    ∀ (fuel : ℕ) (it : IterState) (st : OrchState) (acc : List PPORLElement),
      N - acc.length < fuel → acc.length < N + M →
      ∃ it2 st2 els, decLoop env fuel N it st acc = some (it2, st2, els)
        ∧ N ≤ els.length ∧ els.length < N + M := by
  intro fuel
  induction fuel with
  | zero => intro it st acc h1 h2; omega
  | succ f ih =>
    intro it st acc h1 h2
    simp only [decLoop]
    by_cases hlt : acc.length < N
    · rw [if_pos hlt]
      obtain ⟨b, s2, hnb⟩ := nextPromptBatch_total env.loader hl it
      rw [hnb]
      have hlen := processDecBatch_len env st b
      have e1 := hg1 b
      have eM := hgM b
      exact ih s2 (processDecBatch env st b).1 (acc ++ (processDecBatch env st b).2)
        (by simp only [List.length_append]; omega)
        (by simp only [List.length_append]; omega)
    · rw [if_neg hlt]
      exact ⟨it, st, acc, rfl, by omega, h2⟩

/-! ### Concrete instantiations used by the witnesses -/

/-- Concrete statistics collaborator for witnesses: running std held at 1. -/
def statsW : ScoreStats :=
  { upd := fun r s => ({ count := r.count + s.length, mean := r.mean, std := 1 }, 0, 1)
    tmean := fun l => l.sum
    tstd := fun _ => 2 }

/-- Concrete decoder-only environment: one prompt `[3, 4]`, generation
appends `[7, 9]` (with `9` playing the padding token), rewards equal to
sample length, identity-style logits. -/
def envW : DecEnv :=
  { lp := fun l _ => l.headD 0
    stats := statsW
    cfg := { scaleReward := "none", cliprangeReward := none }
    kl := 1
    loader := fun _ => [[[3, 4]]]
    generate := fun b => ((b.headD []) ++ [7, 9]) :: []
    maskOf := fun rows => rows.map (fun r => r.map (fun t => if t = 9 then 0 else 1))
    forward := fun toks _ =>
      (toks.map (fun r => r.map (fun t => [(t : ℚ)])),
       toks.map (fun r => r.map (fun t => (t : ℚ))))
    refForward := fun toks _ => toks.map (fun r => r.map (fun t => [(t : ℚ) + 1]))
    score := fun samples => samples.map (fun r => (r.length : ℚ)) }

/-- Concrete encoder-decoder environment: one query `[3]`, generated
response `[5, 0]` (with `0` the decoder padding token). -/
def envW5 : T5Env :=
  { lp := fun l _ => l.headD 0
    stats := statsW
    cfg := { scaleReward := "none", cliprangeReward := none }
    kl := 1
    loader := fun _ => [[[3]]]
    generate := fun _ => [[5, 0]]
    respMaskOf := fun rows => rows.map (fun r => r.map (fun t => if t = 0 then 0 else 1))
    encMaskOf := fun rows => rows.map (fun r => r.map (fun _ => 1))
    forward := fun _ _ dec _ =>
      (dec.map (fun r => r.map (fun t => [(t : ℚ)])),
       dec.map (fun r => r.map (fun t => (t : ℚ))))
    refForward := fun _ _ dec _ => dec.map (fun r => r.map (fun t => [(t : ℚ) + 1]))
    score := fun _ ss => ss.map (fun r => (r.length : ℚ)) }

/-- Freshly constructed orchestrator state with unset reference statistics. -/
def stW0 : OrchState := { refMean := none, refStd := none, running := ⟨0, 0, 1⟩ }

/-- Freshly constructed iterator state. -/
def itW0 : IterState := ⟨0, 0⟩

/-- The decoder-only environment reconfigured for `scale_reward = "ref"`. -/
def envWR : DecEnv :=
  { envW with cfg := { scaleReward := "ref", cliprangeReward := none } }

/-- The decoder-only environment with an empty prompt loader. -/
def envWE : DecEnv := { envW with loader := fun _ => [] }

/-- The encoder-decoder environment with an empty prompt loader. -/
def envW5E : T5Env := { envW5 with loader := fun _ => [] }

/-- Concrete loader used by the cyclic-restart witness. -/
def loaderW : ℕ → List PromptBatch := fun _ => [[[3, 4]]]

/-! ### Claims -/

/-- C3: for every token sequence and pair of logits tensors, the extracted
per-position log-probability at position `t` is the gathered
log-probability of the token at position `t + 1` — the logits are dropped
at the last position and the tokens shifted by one; the decoder-only
orchestrator aligns against the concatenated prompt-plus-response row
(`all_tokens`), and the encoder-decoder orchestrator aligns the logprobs
stored in its rollout elements against the decoder input row only (the
encoder input row is not an input of the alignment at all). -/
theorem c3_next_token_alignment :
    (∀ (lp : List ℚ → ℤ → ℚ) (logitsRow : List (List ℚ)) (tokensRow : List ℤ)
       (t : ℕ), t + 1 < logitsRow.length → t + 1 < tokensRow.length →
       (shiftLogprobs lp logitsRow tokensRow).getD t 0
         = lp (logitsRow.getD t []) (tokensRow.getD (t + 1) 0))
  ∧ (∀ (lp : List ℚ → ℤ → ℚ) (logitsRow : List (List ℚ)) (qRow rRow : List ℤ)
       (t : ℕ), t + 1 < logitsRow.length → t + 1 < qRow.length + rRow.length →
       (shiftLogprobs lp logitsRow (qRow ++ rRow)).getD t 0
         = lp (logitsRow.getD t []) ((qRow ++ rRow).getD (t + 1) 0))
  ∧ (∀ (lp : List ℚ → ℤ → ℚ) (kl : ℚ) (qRow rRow decRow : List ℤ)
       (logitsRow refLogitsRow : List (List ℚ)) (valuesRow : List ℚ) (score : ℚ)
       (t : ℕ), t + 1 < logitsRow.length → t + 1 < decRow.length →
       (mkT5Element lp kl qRow rRow decRow logitsRow refLogitsRow valuesRow
           score).logprobs.getD t 0
         = lp (logitsRow.getD t []) (decRow.getD (t + 1) 0)) := by
  refine ⟨fun lp lr tr t h1 h2 => shiftLogprobs_getD lp lr tr t h1 h2, ?_, ?_⟩
  · intro lp lr qRow rRow t h1 h2
    exact shiftLogprobs_getD lp lr (qRow ++ rRow) t h1
      (by simpa [List.length_append] using h2)
  · intro lp kl qRow rRow decRow lr rlr vr sc t h1 h2
    exact shiftLogprobs_getD lp lr decRow t h1 h2

/-- Witness for C3 at concrete inputs. -/
theorem c3_next_token_alignment_witness :
    (shiftLogprobs (fun l t => l.headD 0 + (t : ℚ)) [[1], [2], [3]]
        [10, 20, 30]).getD 1 0
      = (fun (l : List ℚ) (t : ℤ) => l.headD 0 + (t : ℚ))
          ([[1], [2], [3]].getD 1 []) ([10, 20, 30].getD (1 + 1) 0)
  ∧ (shiftLogprobs (fun l t => l.headD 0 + (t : ℚ)) [[1], [2], [3]]
        ([10] ++ [20, 30])).getD 1 0
      = (fun (l : List ℚ) (t : ℤ) => l.headD 0 + (t : ℚ))
          ([[1], [2], [3]].getD 1 []) (([10] ++ [20, 30]).getD (1 + 1) 0)
  ∧ (mkT5Element (fun l t => l.headD 0 + (t : ℚ)) 1 [3] [5, 6] [0, 5, 6]
        [[1], [2], [3]] [[4], [5], [6]] [7, 8, 9] 2).logprobs.getD 1 0
      = (fun (l : List ℚ) (t : ℤ) => l.headD 0 + (t : ℚ))
          ([[1], [2], [3]].getD 1 []) ([0, 5, 6].getD (1 + 1) 0) :=
  ⟨c3_next_token_alignment.1 (fun l t => l.headD 0 + (t : ℚ)) [[1], [2], [3]]
      [10, 20, 30] 1 (by decide) (by decide),
   c3_next_token_alignment.2.1 (fun l t => l.headD 0 + (t : ℚ)) [[1], [2], [3]]
      [10] [20, 30] 1 (by decide) (by decide),
   c3_next_token_alignment.2.2 (fun l t => l.headD 0 + (t : ℚ)) 1 [3] [5, 6]
      [0, 5, 6] [[1], [2], [3]] [[4], [5], [6]] [7, 8, 9] 2 1 (by decide)
      (by decide)⟩

/-- C7: when the current pass over the prompt loader is exhausted, drawing
the next batch does not raise: the end-of-sequence is caught, a fresh pass
is started, and the first batch of the new pass is returned (provided the
fresh pass has a first batch at all; claim C10 covers the empty-loader
case). -/
theorem c7_cyclic_source_restart {α : Type} (loader : ℕ → List α) (s : IterState)
    (hex : (loader s.passIdx).length ≤ s.pos) (b : α) (rest : List α)
    (hfresh : loader (s.passIdx + 1) = b :: rest) :
    nextPromptBatch loader s = some (b, ⟨s.passIdx + 1, 1⟩) := by
  unfold nextPromptBatch
  rw [List.getElem?_eq_none hex, hfresh]
  simp

/-- Witness for C7: a one-batch loader, read past its end. -/
theorem c7_cyclic_source_restart_witness :
    nextPromptBatch loaderW ⟨0, 5⟩ = some ([[3, 4]], ⟨0 + 1, 1⟩) :=
  c7_cyclic_source_restart loaderW ⟨0, 5⟩ (by decide) [[3, 4]] [] rfl

/-- C10: the exhaustion-recovery path catches only the first
end-of-sequence: when the freshly restarted pass yields no batch (an empty
prompt loader), the second `next` raises uncaught, and `make_experience`
(in either orchestrator) aborts with nothing pushed to the store. -/
theorem c10_empty_loader_abort :
    (∀ (loader : ℕ → List PromptBatch) (s : IterState),
       (loader s.passIdx).length ≤ s.pos → loader (s.passIdx + 1) = [] →
       nextPromptBatch loader s = none)
  ∧ (∀ (env : DecEnv) (it : IterState) (st : OrchState) (N : ℕ),
       0 < N → (env.loader it.passIdx).length ≤ it.pos →
       env.loader (it.passIdx + 1) = [] →
       make_experience env it st N = none)
  ∧ (∀ (env : T5Env) (it : IterState) (st : OrchState) (N : ℕ),
       0 < N → (env.loader it.passIdx).length ≤ it.pos →
       env.loader (it.passIdx + 1) = [] →
       t5_make_experience env it st N = none) := by
  refine ⟨fun loader s h1 h2 => nextPromptBatch_none loader s h1 h2, ?_, ?_⟩
  · intro env it st N hN h1 h2
    unfold make_experience
    simp only [decLoop]
    rw [if_pos (by simpa using hN), nextPromptBatch_none env.loader it h1 h2]
  · intro env it st N hN h1 h2
    unfold t5_make_experience
    simp only [t5Loop]
    rw [if_pos (by simpa using hN), nextPromptBatch_none env.loader it h1 h2]

/-- Witness for C10: with an empty loader, both orchestrators abort. -/
theorem c10_empty_loader_abort_witness :
    nextPromptBatch (fun _ => ([] : List PromptBatch)) ⟨0, 0⟩ = none
    ∧ make_experience envWE itW0 stW0 1 = none
    ∧ t5_make_experience envW5E itW0 stW0 1 = none :=
  ⟨c10_empty_loader_abort.1 (fun _ => []) ⟨0, 0⟩ (by decide) rfl,
   c10_empty_loader_abort.2.1 envWE itW0 stW0 1 (by decide) (by decide) rfl,
   c10_empty_loader_abort.2.2 envW5E itW0 stW0 1 (by decide) (by decide) rfl⟩

/-- C1 counterexample: in the encoder-decoder orchestrator the overwrite
`rs[-1] = scores[ix]` targets the last entry of the full decoder-aligned
reward row, not the sample's true last generated token.  With response row
`[5, 99]` whose second token is padding (decoder validity mask `[1, 0]`),
the true last generated token has reward index `0`, but that entry keeps
the KL value `1` while the score `7` is written at index `1`, the
padding-aligned slot. -/
theorem c1_t5_overwrite_counterexample :
    lastGeneratedRewardIdx [1, 0] = 0
    ∧ (mkT5Element (fun l _ => l.headD 0) 1 [3] [5, 99] [0, 5, 99]
        [[2], [5], [7]] [[3], [6], [9]] [0, 5, 99] 7).rewards.getD
        (lastGeneratedRewardIdx [1, 0]) 0 ≠ 7
    ∧ (mkT5Element (fun l _ => l.headD 0) 1 [3] [5, 99] [0, 5, 99]
        [[2], [5], [7]] [[3], [6], [9]] [0, 5, 99] 7).rewards = [1, 7] := by
  have h : (mkT5Element (fun l _ => l.headD 0) 1 [3] [5, 99] [0, 5, 99]
      [[2], [5], [7]] [[3], [6], [9]] [0, 5, 99] 7).rewards = [1, 7] := by
    norm_num [mkT5Element, shiftLogprobs, logprobs_from_logits, klReward,
      setLast]
  refine ⟨rfl, ?_, h⟩
  rw [h]
  decide

/-- C1 (amended): in both orchestrators, a sample's reward vector carries
the shaped score in its last entry and the KL-derived value
`-kl * (policy_logprob - ref_logprob)` everywhere else; in the
decoder-only orchestrator the overwrite happens after the per-sample slice
`[start : ends[ix]]`, so it lands at the position selected by that
sample's own mask sum rather than at the last column of the padded batch;
in the encoder-decoder orchestrator the overwrite lands at the last entry
of the full decoder-aligned reward row, which is the true last generated
token only when the decoder row has no trailing padding (see the
counterexample above). -/
theorem c1_terminal_overwrite_amended :
    (∀ (lp : List ℚ → ℤ → ℚ) (kl : ℚ) (q : ℕ) (maskRow : List ℕ)
       (queryRow respRow tokensRow : List ℤ)
       (logitsRow refLogitsRow : List (List ℚ)) (valuesRow : List ℚ)
       (score : ℚ) (L : ℕ),
       L = (pySlice (klReward kl (shiftLogprobs lp logitsRow tokensRow)
              (shiftLogprobs lp refLogitsRow tokensRow))
              (decSpanStart q) (decSpanStop q maskRow)).length →
       0 < L →
       (mkDecElement lp kl q maskRow queryRow respRow tokensRow logitsRow
           refLogitsRow valuesRow score).rewards.getD (L - 1) 0 = score
       ∧ ∀ j, j < L - 1 →
           (mkDecElement lp kl q maskRow queryRow respRow tokensRow logitsRow
               refLogitsRow valuesRow score).rewards.getD j 0
             = -kl * ((shiftLogprobs lp logitsRow tokensRow).getD
                     (decSpanStart q + j) 0
                 - (shiftLogprobs lp refLogitsRow tokensRow).getD
                     (decSpanStart q + j) 0))
  ∧ (∀ (lp : List ℚ → ℤ → ℚ) (kl : ℚ) (queryRow respRow decRow : List ℤ)
       (logitsRow refLogitsRow : List (List ℚ)) (valuesRow : List ℚ)
       (score : ℚ) (L : ℕ),
       L = (klReward kl (shiftLogprobs lp logitsRow decRow)
              (shiftLogprobs lp refLogitsRow decRow)).length →
       0 < L →
       (mkT5Element lp kl queryRow respRow decRow logitsRow refLogitsRow
           valuesRow score).rewards.getD (L - 1) 0 = score
       ∧ ∀ j, j < L - 1 →
           (mkT5Element lp kl queryRow respRow decRow logitsRow refLogitsRow
               valuesRow score).rewards.getD j 0
             = -kl * ((shiftLogprobs lp logitsRow decRow).getD j 0
                 - (shiftLogprobs lp refLogitsRow decRow).getD j 0)) := by
  constructor
  · intro lp kl q mRow qr rr tr lr rlr vr sc L hL hpos
    have hrw : (mkDecElement lp kl q mRow qr rr tr lr rlr vr sc).rewards
        = setLast (pySlice (klReward kl (shiftLogprobs lp lr tr)
            (shiftLogprobs lp rlr tr)) (decSpanStart q) (decSpanStop q mRow))
            sc := rfl
    have h1 := length_pySlice (klReward kl (shiftLogprobs lp lr tr)
      (shiftLogprobs lp rlr tr)) (decSpanStart q) (decSpanStop q mRow)
    have h2 := length_klReward kl (shiftLogprobs lp lr tr)
      (shiftLogprobs lp rlr tr)
    constructor
    · rw [hrw]
      unfold setLast
      rw [← hL]
      exact getD_set_self _ _ _ _ (by rw [← hL]; omega)
    · intro j hj
      rw [hrw]
      unfold setLast
      rw [getD_set_ne _ _ _ _ _ (by rw [← hL]; omega)]
      rw [getD_pySlice _ _ _ _ _ (by omega)]
      exact getD_zipWith _ _ _ _ 0 0 0 (by omega) (by omega)
  · intro lp kl qr rr decRow lr rlr vr sc L hL hpos
    have hrw : (mkT5Element lp kl qr rr decRow lr rlr vr sc).rewards
        = setLast (klReward kl (shiftLogprobs lp lr decRow)
            (shiftLogprobs lp rlr decRow)) sc := rfl
    have h2 := length_klReward kl (shiftLogprobs lp lr decRow)
      (shiftLogprobs lp rlr decRow)
    constructor
    · rw [hrw]
      unfold setLast
      rw [← hL]
      exact getD_set_self _ _ _ _ (by rw [← hL]; omega)
    · intro j hj
      rw [hrw]
      unfold setLast
      rw [getD_set_ne _ _ _ _ _ (by rw [← hL]; omega)]
      exact getD_zipWith _ _ _ _ 0 0 0 (by omega) (by omega)

/-- Witness for C1 (amended) on both element constructors. -/
theorem c1_terminal_overwrite_amended_witness :
    (mkDecElement (fun l _ => l.headD 0) 1 2 [1, 1, 1, 0] [3, 4] [7, 9]
        [3, 4, 7, 9] [[3], [4], [7], [9]] [[4], [5], [8], [10]] [3, 4, 7, 9]
        4).rewards.getD (2 - 1) 0 = 4
    ∧ (mkDecElement (fun l _ => l.headD 0) 1 2 [1, 1, 1, 0] [3, 4] [7, 9]
        [3, 4, 7, 9] [[3], [4], [7], [9]] [[4], [5], [8], [10]] [3, 4, 7, 9]
        4).rewards.getD 0 0
      = -1 * ((shiftLogprobs (fun l _ => l.headD 0) [[3], [4], [7], [9]]
              [3, 4, 7, 9]).getD (decSpanStart 2 + 0) 0
          - (shiftLogprobs (fun l _ => l.headD 0) [[4], [5], [8], [10]]
              [3, 4, 7, 9]).getD (decSpanStart 2 + 0) 0)
    ∧ (mkT5Element (fun l _ => l.headD 0) 1 [3] [5, 0] [0, 5, 0]
        [[0], [5], [0]] [[1], [6], [1]] [0, 5, 0] 2).rewards.getD (2 - 1) 0 = 2
    ∧ (mkT5Element (fun l _ => l.headD 0) 1 [3] [5, 0] [0, 5, 0]
        [[0], [5], [0]] [[1], [6], [1]] [0, 5, 0] 2).rewards.getD 0 0
      = -1 * ((shiftLogprobs (fun l _ => l.headD 0) [[0], [5], [0]]
              [0, 5, 0]).getD 0 0
          - (shiftLogprobs (fun l _ => l.headD 0) [[1], [6], [1]]
              [0, 5, 0]).getD 0 0) :=
  ⟨(c1_terminal_overwrite_amended.1 (fun l _ => l.headD 0) 1 2 [1, 1, 1, 0]
      [3, 4] [7, 9] [3, 4, 7, 9] [[3], [4], [7], [9]] [[4], [5], [8], [10]]
      [3, 4, 7, 9] 4 2 (by decide) (by decide)).1,
   (c1_terminal_overwrite_amended.1 (fun l _ => l.headD 0) 1 2 [1, 1, 1, 0]
      [3, 4] [7, 9] [3, 4, 7, 9] [[3], [4], [7], [9]] [[4], [5], [8], [10]]
      [3, 4, 7, 9] 4 2 (by decide) (by decide)).2 0 (by decide),
   (c1_terminal_overwrite_amended.2 (fun l _ => l.headD 0) 1 [3] [5, 0]
      [0, 5, 0] [[0], [5], [0]] [[1], [6], [1]] [0, 5, 0] 2 2 (by decide)
      (by decide)).1,
   (c1_terminal_overwrite_amended.2 (fun l _ => l.headD 0) 1 [3] [5, 0]
      [0, 5, 0] [[0], [5], [0]] [[1], [6], [1]] [0, 5, 0] 2 2 (by decide)
      (by decide)).2 0 (by decide)⟩

/-- C2 counterexample: with prompt length `1` and attention mask `[1, 1]`
(no padding anywhere), the mask sum from `start` is `k = 2`, but the
trimmed tensors have only `T - 1 = 1` column, so the Python slice
`[start : start + k]` silently clips and every returned span has length
`1`, not `k`. -/
theorem c2_span_length_counterexample :
    (List.drop (1 - 1) [1, 1]).sum = 2
    ∧ (mkDecElement (fun _ _ => (0 : ℚ)) 1 1 [1, 1] [3] [9] [0, 1] [[], []]
        [[], []] [0, 0] 5).logprobs.length = 1
    ∧ (mkDecElement (fun _ _ => (0 : ℚ)) 1 1 [1, 1] [3] [9] [0, 1] [[], []]
        [[], []] [0, 0] 5).values.length = 1
    ∧ (mkDecElement (fun _ _ => (0 : ℚ)) 1 1 [1, 1] [3] [9] [0, 1] [[], []]
        [[], []] [0, 0] 5).rewards.length = 1 := by
  refine ⟨rfl, ?_, ?_, ?_⟩ <;> decide

/-- C2 (amended): for a decoder-only sample with prompt length `q ≥ 1` and
`k` the attention-mask sum from position `q - 1`, the per-sample slices of
values, logprobs and rewards start at `q - 1` and end at `q - 1 + k`, and
each has length exactly `k` — provided the span end fits within the
trimmed tensors (`q - 1 + k ≤ T - 1`); when the mask is valid through the
final column, the slice is clipped to length `k - 1` instead (see the
counterexample above). -/
theorem c2_span_extraction_amended
    (lp : List ℚ → ℤ → ℚ) (kl : ℚ) (q T : ℕ) (maskRow : List ℕ)
    (queryRow respRow tokensRow : List ℤ)
    (logitsRow refLogitsRow : List (List ℚ)) (valuesRow : List ℚ) (score : ℚ)
    (k : ℕ) (hk : k = (maskRow.drop (q - 1)).sum)
    (ht : tokensRow.length = T) (hlg : logitsRow.length = T)
    (hrl : refLogitsRow.length = T) (hv : valuesRow.length = T)
    (hq : 1 ≤ q) (hfit : q - 1 + k + 1 ≤ T) :
    (mkDecElement lp kl q maskRow queryRow respRow tokensRow logitsRow
        refLogitsRow valuesRow score).logprobs.length = k
    ∧ (mkDecElement lp kl q maskRow queryRow respRow tokensRow logitsRow
        refLogitsRow valuesRow score).values.length = k
    ∧ (mkDecElement lp kl q maskRow queryRow respRow tokensRow logitsRow
        refLogitsRow valuesRow score).rewards.length = k
    ∧ (∀ j, j < k →
        (mkDecElement lp kl q maskRow queryRow respRow tokensRow logitsRow
            refLogitsRow valuesRow score).logprobs.getD j 0
          = (shiftLogprobs lp logitsRow tokensRow).getD (q - 1 + j) 0)
    ∧ (∀ j, j < k →
        (mkDecElement lp kl q maskRow queryRow respRow tokensRow logitsRow
            refLogitsRow valuesRow score).values.getD j 0
          = valuesRow.dropLast.getD (q - 1 + j) 0) := by
  have hstop : decSpanStop q maskRow = q - 1 + k := by
    simp [decSpanStop, decSpanStart, hk]
  have hst : decSpanStart q = q - 1 := rfl
  have e1 : (mkDecElement lp kl q maskRow queryRow respRow tokensRow logitsRow
      refLogitsRow valuesRow score).logprobs
      = pySlice (shiftLogprobs lp logitsRow tokensRow) (decSpanStart q)
          (decSpanStop q maskRow) := rfl
  have e2 : (mkDecElement lp kl q maskRow queryRow respRow tokensRow logitsRow
      refLogitsRow valuesRow score).values
      = pySlice valuesRow.dropLast (decSpanStart q) (decSpanStop q maskRow) :=
    rfl
  have e3 : (mkDecElement lp kl q maskRow queryRow respRow tokensRow logitsRow
      refLogitsRow valuesRow score).rewards
      = setLast (pySlice (klReward kl (shiftLogprobs lp logitsRow tokensRow)
          (shiftLogprobs lp refLogitsRow tokensRow)) (decSpanStart q)
          (decSpanStop q maskRow)) score := rfl
  refine ⟨?_, ?_, ?_, ?_, ?_⟩
  · rw [e1, length_pySlice, length_shiftLogprobs, hlg, ht, hstop, hst]
    omega
  · rw [e2, length_pySlice, List.length_dropLast, hv, hstop, hst]
    omega
  · rw [e3, length_setLast, length_pySlice, length_klReward,
      length_shiftLogprobs, length_shiftLogprobs, hlg, hrl, ht, hstop, hst]
    omega
  · intro j hj
    rw [e1, getD_pySlice _ _ _ _ _ (by rw [hstop, hst]; omega), hst]
  · intro j hj
    rw [e2, getD_pySlice _ _ _ _ _ (by rw [hstop, hst]; omega), hst]

/-- Witness for C2 (amended) at a concrete padded sample. -/
theorem c2_span_extraction_amended_witness :
    (mkDecElement (fun l _ => l.headD 0) 1 2 [1, 1, 1, 0] [3, 4] [7, 9]
        [3, 4, 7, 9] [[3], [4], [7], [9]] [[4], [5], [8], [10]] [3, 4, 7, 9]
        4).logprobs.length = 2
    ∧ (mkDecElement (fun l _ => l.headD 0) 1 2 [1, 1, 1, 0] [3, 4] [7, 9]
        [3, 4, 7, 9] [[3], [4], [7], [9]] [[4], [5], [8], [10]] [3, 4, 7, 9]
        4).values.length = 2
    ∧ (mkDecElement (fun l _ => l.headD 0) 1 2 [1, 1, 1, 0] [3, 4] [7, 9]
        [3, 4, 7, 9] [[3], [4], [7], [9]] [[4], [5], [8], [10]] [3, 4, 7, 9]
        4).rewards.length = 2
    ∧ (mkDecElement (fun l _ => l.headD 0) 1 2 [1, 1, 1, 0] [3, 4] [7, 9]
        [3, 4, 7, 9] [[3], [4], [7], [9]] [[4], [5], [8], [10]] [3, 4, 7, 9]
        4).logprobs.getD 0 0
      = (shiftLogprobs (fun l _ => l.headD 0) [[3], [4], [7], [9]]
          [3, 4, 7, 9]).getD (2 - 1 + 0) 0
    ∧ (mkDecElement (fun l _ => l.headD 0) 1 2 [1, 1, 1, 0] [3, 4] [7, 9]
        [3, 4, 7, 9] [[3], [4], [7], [9]] [[4], [5], [8], [10]] [3, 4, 7, 9]
        4).values.getD 0 0
      = ([3, 4, 7, 9] : List ℚ).dropLast.getD (2 - 1 + 0) 0 := by
  have h := c2_span_extraction_amended (fun l _ => l.headD 0) 1 2 4 [1, 1, 1, 0]
    [3, 4] [7, 9] [3, 4, 7, 9] [[3], [4], [7], [9]] [[4], [5], [8], [10]]
    [3, 4, 7, 9] 4 2 (by decide) (by decide) (by decide) (by decide)
    (by decide) (by decide) (by decide)
  exact ⟨h.1, h.2.1, h.2.2.1, h.2.2.2.1 0 (by decide), h.2.2.2.2 0 (by decide)⟩

/-- C8: for every rollout element, the logprobs, values and rewards
sequences have equal length, equal to the response-span length: in the
decoder-only path the (clip-aware) per-sample span length
`decSpanLen T q maskRow`, in the encoder-decoder path the length of the
entire decoder output, i.e. of the response row. -/
theorem c8_element_length_invariant :
    (∀ (lp : List ℚ → ℤ → ℚ) (kl : ℚ) (q T : ℕ) (maskRow : List ℕ)
       (queryRow respRow tokensRow : List ℤ)
       (logitsRow refLogitsRow : List (List ℚ)) (valuesRow : List ℚ)
       (score : ℚ),
       tokensRow.length = T → logitsRow.length = T → refLogitsRow.length = T →
       valuesRow.length = T →
       (mkDecElement lp kl q maskRow queryRow respRow tokensRow logitsRow
           refLogitsRow valuesRow score).logprobs.length
         = decSpanLen T q maskRow
       ∧ (mkDecElement lp kl q maskRow queryRow respRow tokensRow logitsRow
           refLogitsRow valuesRow score).values.length = decSpanLen T q maskRow
       ∧ (mkDecElement lp kl q maskRow queryRow respRow tokensRow logitsRow
           refLogitsRow valuesRow score).rewards.length
         = decSpanLen T q maskRow)
  ∧ (∀ (lp : List ℚ → ℤ → ℚ) (kl : ℚ) (qRow rRow : List ℤ)
       (logitsRow refLogitsRow : List (List ℚ)) (valuesRow : List ℚ)
       (score : ℚ),
       logitsRow.length = rRow.length + 1 →
       refLogitsRow.length = rRow.length + 1 →
       valuesRow.length = rRow.length + 1 →
       (mkT5Element lp kl qRow rRow (0 :: rRow) logitsRow refLogitsRow
           valuesRow score).logprobs.length = rRow.length
       ∧ (mkT5Element lp kl qRow rRow (0 :: rRow) logitsRow refLogitsRow
           valuesRow score).values.length = rRow.length
       ∧ (mkT5Element lp kl qRow rRow (0 :: rRow) logitsRow refLogitsRow
           valuesRow score).rewards.length = rRow.length) := by
  constructor
  · intro lp kl q T maskRow queryRow respRow tokensRow logitsRow refLogitsRow
      valuesRow score ht hlg hrl hv
    have e1 : (mkDecElement lp kl q maskRow queryRow respRow tokensRow
        logitsRow refLogitsRow valuesRow score).logprobs
        = pySlice (shiftLogprobs lp logitsRow tokensRow) (decSpanStart q)
            (decSpanStop q maskRow) := rfl
    have e2 : (mkDecElement lp kl q maskRow queryRow respRow tokensRow
        logitsRow refLogitsRow valuesRow score).values
        = pySlice valuesRow.dropLast (decSpanStart q) (decSpanStop q maskRow) :=
      rfl
    have e3 : (mkDecElement lp kl q maskRow queryRow respRow tokensRow
        logitsRow refLogitsRow valuesRow score).rewards
        = setLast (pySlice (klReward kl (shiftLogprobs lp logitsRow tokensRow)
            (shiftLogprobs lp refLogitsRow tokensRow)) (decSpanStart q)
            (decSpanStop q maskRow)) score := rfl
    refine ⟨?_, ?_, ?_⟩
    · rw [e1, length_pySlice, length_shiftLogprobs, hlg, ht]
      simp only [decSpanLen]
      omega
    · rw [e2, length_pySlice, List.length_dropLast, hv]
      simp only [decSpanLen]
      omega
    · rw [e3, length_setLast, length_pySlice, length_klReward,
        length_shiftLogprobs, length_shiftLogprobs, hlg, hrl, ht]
      simp only [decSpanLen]
      omega
  · intro lp kl qRow rRow logitsRow refLogitsRow valuesRow score hlg hrl hv
    have e1 : (mkT5Element lp kl qRow rRow (0 :: rRow) logitsRow refLogitsRow
        valuesRow score).logprobs
        = shiftLogprobs lp logitsRow (0 :: rRow) := rfl
    have e2 : (mkT5Element lp kl qRow rRow (0 :: rRow) logitsRow refLogitsRow
        valuesRow score).values = valuesRow.dropLast := rfl
    have e3 : (mkT5Element lp kl qRow rRow (0 :: rRow) logitsRow refLogitsRow
        valuesRow score).rewards
        = setLast (klReward kl (shiftLogprobs lp logitsRow (0 :: rRow))
            (shiftLogprobs lp refLogitsRow (0 :: rRow))) score := rfl
    refine ⟨?_, ?_, ?_⟩
    · rw [e1, length_shiftLogprobs, hlg, List.length_cons]
      omega
    · rw [e2, List.length_dropLast, hv]
      omega
    · rw [e3, length_setLast, length_klReward, length_shiftLogprobs,
        length_shiftLogprobs, hlg, hrl, List.length_cons]
      omega

/-- Witness for C8 on both element constructors. -/
theorem c8_element_length_invariant_witness :
    (mkDecElement (fun l _ => l.headD 0) 1 2 [1, 1, 1, 0] [3, 4] [7, 9]
        [3, 4, 7, 9] [[3], [4], [7], [9]] [[4], [5], [8], [10]] [3, 4, 7, 9]
        4).logprobs.length = decSpanLen 4 2 [1, 1, 1, 0]
    ∧ (mkDecElement (fun l _ => l.headD 0) 1 2 [1, 1, 1, 0] [3, 4] [7, 9]
        [3, 4, 7, 9] [[3], [4], [7], [9]] [[4], [5], [8], [10]] [3, 4, 7, 9]
        4).values.length = decSpanLen 4 2 [1, 1, 1, 0]
    ∧ (mkDecElement (fun l _ => l.headD 0) 1 2 [1, 1, 1, 0] [3, 4] [7, 9]
        [3, 4, 7, 9] [[3], [4], [7], [9]] [[4], [5], [8], [10]] [3, 4, 7, 9]
        4).rewards.length = decSpanLen 4 2 [1, 1, 1, 0]
    ∧ (mkT5Element (fun l _ => l.headD 0) 1 [3] [5, 0] (0 :: [5, 0])
        [[0], [5], [0]] [[1], [6], [1]] [0, 5, 0] 2).logprobs.length
      = ([5, 0] : List ℤ).length
    ∧ (mkT5Element (fun l _ => l.headD 0) 1 [3] [5, 0] (0 :: [5, 0])
        [[0], [5], [0]] [[1], [6], [1]] [0, 5, 0] 2).values.length
      = ([5, 0] : List ℤ).length
    ∧ (mkT5Element (fun l _ => l.headD 0) 1 [3] [5, 0] (0 :: [5, 0])
        [[0], [5], [0]] [[1], [6], [1]] [0, 5, 0] 2).rewards.length
      = ([5, 0] : List ℤ).length := by
  have h1 := c8_element_length_invariant.1 (fun l _ => l.headD 0) 1 2 4
    [1, 1, 1, 0] [3, 4] [7, 9] [3, 4, 7, 9] [[3], [4], [7], [9]]
    [[4], [5], [8], [10]] [3, 4, 7, 9] 4 (by decide) (by decide) (by decide)
    (by decide)
  have h2 := c8_element_length_invariant.2 (fun l _ => l.headD 0) 1 [3] [5, 0]
    [[0], [5], [0]] [[1], [6], [1]] [0, 5, 0] 2 (by decide) (by decide)
    (by decide)
  exact ⟨h1.1, h1.2.1, h1.2.2, h2.1, h2.2.1, h2.2.2⟩

/-- A `getD` at an in-range index is a member of the list. -/
theorem getD_mem {α : Type} :
    ∀ (l : List α) (n : ℕ) (d : α), n < l.length → l.getD n d ∈ l := by
  intro l
  induction l with
  | nil => intro n d h; simp at h
  | cons a l ih =>
    intro n d h
    cases n with
    | zero => exact List.mem_cons_self _ _
    | succ n => exact List.mem_cons_of_mem _ (ih n d (by simpa using h))

/-- Every entry of a clipped score list lies inside the configured range. -/
theorem applyClip_mem_bounds (cfg : MethodConfig) (c : ℚ)
    (hc : cfg.cliprangeReward = some c) (h0 : 0 < c) (l : List ℚ) :
    ∀ x ∈ applyClip cfg l, -c ≤ x ∧ x ≤ c := by
  intro x hx
  simp only [applyClip, hc] at hx
  rw [if_neg (ne_of_gt h0)] at hx
  obtain ⟨y, -, rfl⟩ := List.mem_map.mp hx
  unfold torchClip
  exact ⟨le_min (le_max_right _ _) (by linarith), min_le_right _ _⟩

/-- C5: for every scored batch, with `scale_reward = "running"` the scores
are divided by the running standard deviation as updated by this very
batch; with `"ref"` by the stored reference std; otherwise they pass
through unscaled; and a configured positive clip range `c`, applied after
normalization, forces every shaped score into `[-c, c]`. -/
theorem c5_reward_shaping (S : ScoreStats) (cfg : MethodConfig)
    (st : OrchState) (scores : List ℚ) :
    (cfg.scaleReward = "running" →
       (shapeScores S cfg st scores).2
         = applyClip cfg (scores.map
             (fun x => x / ((S.upd st.running scores).1).std)))
    ∧ (∀ s, cfg.scaleReward = "ref" → st.refMean ≠ none → st.refStd = some s →
       (shapeScores S cfg st scores).2
         = applyClip cfg (scores.map (fun x => x / s)))
    ∧ (cfg.scaleReward ≠ "running" → cfg.scaleReward ≠ "ref" →
       (shapeScores S cfg st scores).2 = applyClip cfg scores)
    ∧ (∀ c, cfg.cliprangeReward = some c → 0 < c →
       ∀ x ∈ (shapeScores S cfg st scores).2, -c ≤ x ∧ x ≤ c) := by
  refine ⟨?_, ?_, ?_, ?_⟩
  · intro h
    simp only [shapeScores, h, if_pos, captureRef_running]
  · intro s h hm hs
    obtain ⟨m, hm2⟩ := Option.ne_none_iff_exists'.mp hm
    simp only [shapeScores, captureRef_of_set S st scores m hm2]
    rw [h, if_neg (by decide : ¬ ("ref" : String) = "running"),
      if_pos (rfl : ("ref" : String) = "ref"), hs]
    rfl
  · intro h1 h2
    simp only [shapeScores]
    rw [if_neg h1, if_neg h2]
  · intro c hc h0 x hx
    simp only [shapeScores] at hx
    exact applyClip_mem_bounds cfg c hc h0 _ x hx

/-- Concrete statistics collaborator whose updated running std is `2`. -/
def statsW2 : ScoreStats :=
  { upd := fun r s => ({ count := r.count + s.length, mean := 0, std := 2 }, 0, 2)
    tmean := fun l => l.sum
    tstd := fun _ => 3 }

/-- An orchestrator state whose reference statistics are already set. -/
def stPinned : OrchState := ⟨some 1, some 2, ⟨0, 0, 1⟩⟩

/-- Witness for C5 on all four shaping branches. -/
theorem c5_reward_shaping_witness :
    (shapeScores statsW2 ⟨"running", some 1⟩ stW0 [4, -6]).2
      = applyClip ⟨"running", some 1⟩ ([4, -6].map
          (fun x => x / ((statsW2.upd stW0.running [4, -6]).1).std))
    ∧ (shapeScores statsW2 ⟨"ref", none⟩ stPinned [4, -6]).2
      = applyClip ⟨"ref", none⟩ ([4, -6].map (fun x => x / 2))
    ∧ (shapeScores statsW2 ⟨"none", none⟩ stW0 [4, -6]).2
      = applyClip ⟨"none", none⟩ [4, -6]
    ∧ (-1 ≤ (shapeScores statsW2 ⟨"running", some 1⟩ stW0 [4, -6]).2.getD 0 0
       ∧ (shapeScores statsW2 ⟨"running", some 1⟩ stW0 [4, -6]).2.getD 0 0 ≤ 1) :=
  ⟨(c5_reward_shaping statsW2 ⟨"running", some 1⟩ stW0 [4, -6]).1 rfl,
   (c5_reward_shaping statsW2 ⟨"ref", none⟩ stPinned [4, -6]).2.1 2 rfl
     (by decide) rfl,
   (c5_reward_shaping statsW2 ⟨"none", none⟩ stW0 [4, -6]).2.2.1 (by decide)
     (by decide),
   (c5_reward_shaping statsW2 ⟨"running", some 1⟩ stW0 [4, -6]).2.2.2 1 rfl
     (by norm_num) _ (getD_mem _ 0 0 (by decide))⟩

/-- C4: with both reference statistics unset at construction, the first
call to `make_experience` pins them, exactly once, to the mean and std of
the very first scored batch, before any ref-based scaling of that batch;
they then survive every later batch of that call and every later call
unchanged. -/
theorem c4_ref_stats_capture_once (env : DecEnv) (it0 : IterState)
    (st0 : OrchState) (N : ℕ) (hm : st0.refMean = none)
    (hs : st0.refStd = none) (hN : 0 < N) (b1 : PromptBatch) (itb : IterState)
    (hb : nextPromptBatch env.loader it0 = some (b1, itb))
    (it1 : IterState) (st1 : OrchState) (els1 : List PPORLElement)
    (h1 : make_experience env it0 st0 N = some (it1, st1, els1)) :
    st1.refMean = some (env.stats.tmean (env.score (env.generate b1)))
    ∧ st1.refStd = some (env.stats.tstd (env.score (env.generate b1)))
    ∧ (∀ (N2 : ℕ) (it2 : IterState) (st2 : OrchState)
         (els2 : List PPORLElement),
         make_experience env it1 st1 N2 = some (it2, st2, els2) →
         st2.refMean = st1.refMean ∧ st2.refStd = st1.refStd)
    ∧ (env.cfg.scaleReward = "ref" →
         (shapeScores env.stats env.cfg st0 (env.score (env.generate b1))).2
           = applyClip env.cfg ((env.score (env.generate b1)).map
               (fun x => x / env.stats.tstd (env.score (env.generate b1))))) := by
  unfold make_experience at h1
  simp only [decLoop] at h1
  rw [if_pos (by simpa using hN)] at h1
  split at h1
  · rename_i heq
    rw [hb] at heq
    exact absurd heq (by simp)
  · rename_i b itn heq
    rw [hb] at heq
    simp only [Option.some.injEq, Prod.mk.injEq] at heq
    obtain ⟨hbb, hit⟩ := heq
    subst hbb
    subst hit
    have hcap := shapeScores_capture env.stats env.cfg st0
      (env.score (env.generate b1)) hm
    have hst := processDecBatch_state env st0 b1
    have hpin := decLoop_pinned env N N itb (processDecBatch env st0 b1).1
      ([] ++ (processDecBatch env st0 b1).2) it1 st1 els1
      (env.stats.tmean (env.score (env.generate b1)))
      (by rw [hst]; exact hcap.1) h1
    refine ⟨hpin.1, ?_, ?_, ?_⟩
    · rw [hpin.2, hst, hcap.2]
    · intro N2 it2 st2 els2 h2
      unfold make_experience at h2
      have hpin2 := decLoop_pinned env (N2 + 1) N2 it1 st1 [] it2 st2 els2
        (env.stats.tmean (env.score (env.generate b1))) hpin.1 h2
      exact ⟨by rw [hpin2.1, hpin.1], hpin2.2⟩
    · intro h
      have hstd : (captureRef env.stats st0 (env.score (env.generate b1))).refStd
          = some (env.stats.tstd (env.score (env.generate b1))) := by
        simp [captureRef, hm]
      simp only [shapeScores]
      rw [h, if_neg (by decide : ¬ ("ref" : String) = "running"),
        if_pos (rfl : ("ref" : String) = "ref"), hstd]
      rfl

/-- Trivial decoder-only environment (one empty prompt, empty score
lists): every run evaluates by kernel reduction alone. -/
def envT : DecEnv :=
  { lp := fun _ _ => 0
    stats := statsW
    cfg := { scaleReward := "none", cliprangeReward := none }
    kl := 0
    loader := fun _ => [[[]]]
    generate := fun _ => [[]]
    maskOf := fun rows => rows.map (fun r => r.map (fun _ => 1))
    forward := fun toks _ =>
      (toks.map (fun r => r.map (fun _ => [])),
       toks.map (fun r => r.map (fun _ => 0)))
    refForward := fun toks _ => toks.map (fun r => r.map (fun _ => []))
    score := fun _ => [] }

/-- The trivial decoder-only environment with `scale_reward = "ref"`. -/
def envTR : DecEnv :=
  { envT with cfg := { scaleReward := "ref", cliprangeReward := none } }

/-- Trivial encoder-decoder environment. -/
def envT5 : T5Env :=
  { lp := fun _ _ => 0
    stats := statsW
    cfg := { scaleReward := "none", cliprangeReward := none }
    kl := 0
    loader := fun _ => [[[]]]
    generate := fun _ => [[]]
    respMaskOf := fun rows => rows.map (fun r => r.map (fun _ => 1))
    encMaskOf := fun rows => rows.map (fun r => r.map (fun _ => 1))
    forward := fun _ _ dec _ =>
      (dec.map (fun r => r.map (fun _ => [])),
       dec.map (fun r => r.map (fun _ => 0)))
    refForward := fun _ _ dec _ => dec.map (fun r => r.map (fun _ => []))
    score := fun _ _ => [] }

/-- Witness for C4: two successive calls on the trivial environment, plus
the ref-scaling conjunct on its `"ref"` variant. -/
theorem c4_ref_stats_capture_once_witness :
    (⟨some 0, some 2, ⟨0, 0, 1⟩⟩ : OrchState).refMean
      = some (envT.stats.tmean (envT.score (envT.generate [[]])))
    ∧ (⟨some 0, some 2, ⟨0, 0, 1⟩⟩ : OrchState).refStd
      = some (envT.stats.tstd (envT.score (envT.generate [[]])))
    ∧ ((⟨some 0, some 2, ⟨0, 0, 1⟩⟩ : OrchState).refMean
        = (⟨some 0, some 2, ⟨0, 0, 1⟩⟩ : OrchState).refMean
       ∧ (⟨some 0, some 2, ⟨0, 0, 1⟩⟩ : OrchState).refStd
        = (⟨some 0, some 2, ⟨0, 0, 1⟩⟩ : OrchState).refStd)
    ∧ (shapeScores envTR.stats envTR.cfg stW0
        (envTR.score (envTR.generate [[]]))).2
      = applyClip envTR.cfg ((envTR.score (envTR.generate [[]])).map
          (fun x => x / envTR.stats.tstd (envTR.score (envTR.generate [[]])))) :=
  ⟨(c4_ref_stats_capture_once envT itW0 stW0 1 rfl rfl (by decide) [[]] ⟨0, 1⟩
      (by decide) ⟨0, 1⟩ ⟨some 0, some 2, ⟨0, 0, 1⟩⟩ [⟨[], [], [], [], []⟩]
      (by decide)).1,
   (c4_ref_stats_capture_once envT itW0 stW0 1 rfl rfl (by decide) [[]] ⟨0, 1⟩
      (by decide) ⟨0, 1⟩ ⟨some 0, some 2, ⟨0, 0, 1⟩⟩ [⟨[], [], [], [], []⟩]
      (by decide)).2.1,
   (c4_ref_stats_capture_once envT itW0 stW0 1 rfl rfl (by decide) [[]] ⟨0, 1⟩
      (by decide) ⟨0, 1⟩ ⟨some 0, some 2, ⟨0, 0, 1⟩⟩ [⟨[], [], [], [], []⟩]
      (by decide)).2.2.1 1 ⟨1, 1⟩ ⟨some 0, some 2, ⟨0, 0, 1⟩⟩
      [⟨[], [], [], [], []⟩] (by decide),
   (c4_ref_stats_capture_once envTR itW0 stW0 1 rfl rfl (by decide) [[]] ⟨0, 1⟩
      (by decide) ⟨0, 1⟩ ⟨some 0, some 2, ⟨0, 0, 1⟩⟩ [⟨[], [], [], [], []⟩]
      (by decide)).2.2.2 rfl⟩

/-- C6: when every fresh pass is nonempty and every generation call yields
between `1` and `M` samples, `make_experience(N)` terminates successfully
and pushes at least `N` elements; the final batch is never truncated, so
the count stays below `N + M` (overshoot of less than one batch). -/
theorem c6_make_experience_accumulates (env : DecEnv) (N M : ℕ)
    (it : IterState) (st : OrchState)
    (hl : ∀ j, env.loader j ≠ [])
    (hg1 : ∀ b, 1 ≤ (env.generate b).length)
    (hgM : ∀ b, (env.generate b).length ≤ M) :
    (make_experience env it st N).isSome = true
    ∧ N ≤ (((make_experience env it st N).getD (it, st, [])).2.2).length
    ∧ (((make_experience env it st N).getD (it, st, [])).2.2).length
      < N + M := by
  have hM : 1 ≤ M := le_trans (hg1 []) (hgM [])
  obtain ⟨it2, st2, els, heq, hge, hlt⟩ := decLoopTotal env N M hl hg1 hgM
    (N + 1) it st [] (by simp only [List.length_nil]; omega)
    (by simp only [List.length_nil]; omega)
  unfold make_experience
  rw [heq]
  refine ⟨rfl, ?_, ?_⟩
  · simpa using hge
  · simpa using hlt

/-- Witness for C6 on the trivial environment with `N = M = 1`. -/
theorem c6_make_experience_accumulates_witness :
    (make_experience envT itW0 stW0 1).isSome = true
    ∧ 1 ≤ (((make_experience envT itW0 stW0 1).getD (itW0, stW0, [])).2.2).length
    ∧ (((make_experience envT itW0 stW0 1).getD (itW0, stW0, [])).2.2).length
      < 1 + 1 :=
  c6_make_experience_accumulates envT 1 1 itW0 stW0 (fun j => by simp [envT])
    (fun b => by simp [envT]) (fun b => by simp [envT])

/-- C9: for an orchestrator whose `ref_mean` is already set (non-`None`),
`make_experience` never writes `ref_std` — even when `ref_std` is still
`None` — and never modifies `ref_mean`, in both orchestrators. -/
theorem c9_ref_stats_frame :
    (∀ (env : DecEnv) (it : IterState) (st : OrchState) (N : ℕ)
       (it2 : IterState) (st2 : OrchState) (els : List PPORLElement) (m : ℚ),
       st.refMean = some m →
       make_experience env it st N = some (it2, st2, els) →
       st2.refMean = some m ∧ st2.refStd = st.refStd)
    ∧ (∀ (env : T5Env) (it : IterState) (st : OrchState) (N : ℕ)
       (it2 : IterState) (st2 : OrchState) (els : List PPORLElement) (m : ℚ),
       st.refMean = some m →
       t5_make_experience env it st N = some (it2, st2, els) →
       st2.refMean = some m ∧ st2.refStd = st.refStd) := by
  constructor
  · intro env it st N it2 st2 els m hm h
    exact decLoop_pinned env (N + 1) N it st [] it2 st2 els m hm h
  · intro env it st N it2 st2 els m hm h
    exact t5Loop_pinned env (N + 1) N it st [] it2 st2 els m hm h

/-- Witness for C9 on both orchestrators, starting from a pinned state
with `ref_std` present, run for one call each. -/
theorem c9_ref_stats_frame_witness :
    ((⟨some 0, some 2, ⟨0, 0, 1⟩⟩ : OrchState).refMean = some 0
     ∧ (⟨some 0, some 2, ⟨0, 0, 1⟩⟩ : OrchState).refStd
       = (⟨some 0, some 2, ⟨0, 0, 1⟩⟩ : OrchState).refStd)
    ∧ ((⟨some 0, some 2, ⟨0, 0, 1⟩⟩ : OrchState).refMean = some 0
     ∧ (⟨some 0, some 2, ⟨0, 0, 1⟩⟩ : OrchState).refStd
       = (⟨some 0, some 2, ⟨0, 0, 1⟩⟩ : OrchState).refStd) :=
  ⟨c9_ref_stats_frame.1 envT ⟨0, 1⟩ ⟨some 0, some 2, ⟨0, 0, 1⟩⟩ 1 ⟨1, 1⟩
      ⟨some 0, some 2, ⟨0, 0, 1⟩⟩ [⟨[], [], [], [], []⟩] 0 rfl (by decide),
   c9_ref_stats_frame.2 envT5 ⟨0, 1⟩ ⟨some 0, some 2, ⟨0, 0, 1⟩⟩ 1 ⟨1, 1⟩
      ⟨some 0, some 2, ⟨0, 0, 1⟩⟩ [⟨[], [], [], [], []⟩] 0 rfl (by decide)⟩
